import Mathlib

/-!
Shallow embedding of the uvicoord port-allocation core:
`core/src/uvicoord/models.py` and `src/uvicoord/service/port_manager.py`.

Python integers are `Int`, optional values are `Option`, Python `dict`s
(which preserve insertion order) are association lists with the dict
operations `dictGet` / `dictInsert` / `dictErase`.  The OS-facing probes
`psutil.pid_exists` and `PortManager.is_port_available` are parameters
`alive : Int → Bool` and `bindable : Int → Bool`; the generated uuid
fragment and the timestamp are parameters `genId` and `now`.  Exceptions
are `Except String`.
-/

namespace Uvicoord

/-! ### Data model (models.py) -/

inductive PortStrategy where
  | dedicated
  | range
  | list
  | stepped
  | any
deriving DecidableEq, Repr

/-- `SteppedPortConfig`: start / step / count for the stepped strategy. -/
structure SteppedPortConfig where
  start : Int
  step : Int
  count : Int
deriving DecidableEq, Repr

/-- `AppConfig`: one registered application, with the optional
strategy-specific fields exactly as in the pydantic model. -/
structure AppConfig where
  name : String
  path : String
  command : String
  port_strategy : PortStrategy
  port : Option Int
  port_range : Option (Int × Int)
  ports : Option (List Int)
  port_step : Option SteppedPortConfig
deriving DecidableEq, Repr

/-- Python `list(range(a, b + 1))` over `Int` (empty when `b < a`). -/
def rangeInt (a b : Int) : List Int :=
  (List.range (b + 1 - a).toNat).map (fun i : Nat => a + (i : Int))

/-- `AppConfig.get_available_ports`.  Note the Python truthiness tests:
`if self.port` is false for `None` and for `0`; `self.ports or []`
returns `[]` for an empty list (which equals the list itself); a tuple
and a pydantic model are always truthy. -/
def AppConfig.get_available_ports (a : AppConfig) : List Int :=
  match a.port_strategy with
  | .dedicated =>
      match a.port with
      | some p => if p == 0 then [] else [p]
      | none => []
  | .range =>
      match a.port_range with
      | some r => rangeInt r.1 r.2
      | none => []
  | .list =>
      match a.ports with
      | some ps => ps
      | none => []
  | .stepped =>
      match a.port_step with
      | some sc => (List.range sc.count.toNat).map (fun i : Nat => sc.start + (i : Int) * sc.step)
      | none => []
  | .any => []

/-- `CoordinatorConfig`: coordinator port, default range, app map. -/
structure CoordinatorConfig where
  coordinator_port : Int
  default_port_range : Int × Int
  apps : List (String × AppConfig)
deriving DecidableEq, Repr

/-- `ActiveInstance`: one running instance tracked by the registry. -/
structure ActiveInstance where
  app_name : String
  instance_id : String
  port : Int
  pid : Int
  started_at : String
deriving DecidableEq, Repr

/-! ### Ordered-dict operations -/

/-- `d.get(k)` / `d[k]` lookup on an insertion-ordered dict. -/
def dictGet {α : Type} (l : List (String × α)) (k : String) : Option α :=
  (l.find? (fun kv => kv.1 == k)).map (fun kv => kv.2)

/-- `del d[k]`. -/
def dictErase {α : Type} (l : List (String × α)) (k : String) : List (String × α) :=
  l.filter (fun kv => kv.1 != k)

/-- `d[k] = v`: replace in place when the key exists, else append. -/
def dictInsert {α : Type} (l : List (String × α)) (k : String) (v : α) : List (String × α) :=
  if l.any (fun kv => kv.1 == k) then l.map (fun kv => if kv.1 == k then (k, v) else kv)
  else l ++ [(k, v)]

/-! ### Serialized config document (`_save_config` / `_load_config`) -/

/-- One entry of the on-disk `apps` map: JSON has only arrays, so
`port_range` is stored as a two-element list and `port_step` as the
nested `{start, step, count}` object. -/
structure SavedApp where
  path : String
  command : String
  port_strategy : String
  port : Option Int
  port_range : Option (List Int)
  ports : Option (List Int)
  port_step : Option (Int × Int × Int)
deriving DecidableEq, Repr

/-- The whole on-disk config document. -/
structure SavedDoc where
  coordinator_port : Int
  default_port_range : List Int
  apps : List (String × SavedApp)
deriving DecidableEq, Repr

/-- `PortStrategy.value`, the string stored in the document. -/
def strategyValue : PortStrategy → String
  | .dedicated => "dedicated"
  | .range => "range"
  | .list => "list"
  | .stepped => "stepped"
  | .any => "any"

/-- Parsing the stored strategy string back into the enum (pydantic
`str`-enum validation). -/
def parseStrategy (sv : String) : Option PortStrategy :=
  if sv == "dedicated" then some .dedicated
  else if sv == "range" then some .range
  else if sv == "list" then some .list
  else if sv == "stepped" then some .stepped
  else if sv == "any" then some .any
  else none

/-- `_save_config` body for one app: strategy-specific fields are
written only when present; `name` is the map key and is not written. -/
def saveApp (a : AppConfig) : SavedApp :=
  { path := a.path
    command := a.command
    port_strategy := strategyValue a.port_strategy
    port := a.port
    port_range := a.port_range.map (fun r => [r.1, r.2])
    ports := a.ports
    port_step := a.port_step.map (fun sc => (sc.start, sc.step, sc.count)) }

/-- `_save_config`: the document written for a `CoordinatorConfig`. -/
def save_config (cfg : CoordinatorConfig) : SavedDoc :=
  { coordinator_port := cfg.coordinator_port
    default_port_range := [cfg.default_port_range.1, cfg.default_port_range.2]
    apps := cfg.apps.map (fun kv => (kv.1, saveApp kv.2)) }

/-- `tuple(app_data["port_range"])` followed by pydantic `tuple[int,int]`
validation: a stored range list must have exactly two elements. -/
def parseRange : Option (List Int) → Option (Option (Int × Int))
  | none => some none
  | some [a, b] => some (some (a, b))
  | some _ => none

/-- `SteppedPortConfig(**app_data["port_step"])` with its field
validators: `1024 ≤ start ≤ 65535`, `step ≥ 1`, `count ≥ 1`. -/
def parseStep : Option (Int × Int × Int) → Option (Option SteppedPortConfig)
  | none => some none
  | some (st, sp, c) =>
      if decide (1024 ≤ st) && decide (st ≤ 65535) && decide (1 ≤ sp) && decide (1 ≤ c) then
        some (some { start := st, step := sp, count := c })
      else none

/-- `AppConfig(**app_data)` for one stored app: the map key becomes
`name`, and pydantic validates `port` against `ge=1024, le=65535`. -/
def loadApp (n : String) (d : SavedApp) : Option AppConfig :=
  match parseStrategy d.port_strategy, parseRange d.port_range, parseStep d.port_step with
  | some st, some pr, some psc =>
      if d.port.all (fun p => decide (1024 ≤ p) && decide (p ≤ 65535)) then
        some { name := n, path := d.path, command := d.command, port_strategy := st,
               port := d.port, port_range := pr, ports := d.ports, port_step := psc }
      else none
  | _, _, _ => none

/-- Loading every entry of the stored `apps` map, failing if any entry
fails validation. -/
def loadApps : List (String × SavedApp) → Option (List (String × AppConfig))
  | [] => some []
  | (n, d) :: rest =>
      match loadApp n d, loadApps rest with
      | some a, some r => some ((n, a) :: r)
      | _, _ => none

/-- `tuple(default_port_range)` plus pydantic arity validation. -/
def parseDefRange : List Int → Option (Int × Int)
  | [a, b] => some (a, b)
  | _ => none

/-- `_load_config` applied to a document already parsed from JSON. -/
def load_config (d : SavedDoc) : Option CoordinatorConfig :=
  match parseDefRange d.default_port_range, loadApps d.apps with
  | some dr, some apps =>
      some { coordinator_port := d.coordinator_port, default_port_range := dr, apps := apps }
  | _, _ => none

/-- The pydantic validity of an app's constrained fields, as a Boolean
so concrete configs can be checked by evaluation. -/
def validApp (a : AppConfig) : Bool :=
  a.port.all (fun p => decide (1024 ≤ p) && decide (p ≤ 65535)) &&
  a.port_step.all (fun sc =>
    decide (1024 ≤ sc.start) && decide (sc.start ≤ 65535) &&
    decide (1 ≤ sc.step) && decide (1 ≤ sc.count))

/-- A `CoordinatorConfig` whose apps all pass pydantic validation. -/
def validCfg (cfg : CoordinatorConfig) : Bool :=
  cfg.apps.all (fun kv => validApp kv.2)

/-! ### PortManager state and operations (port_manager.py) -/

/-- The mutable fields of a `PortManager`: the in-memory config, the
active-instance dict, and the last document written to the config file
(`none` when the manager has not written it). -/
structure PMState where
  config : CoordinatorConfig
  active_instances : List (String × ActiveInstance)
  configFile : Option SavedDoc
deriving DecidableEq, Repr

/-- `f"{app_name}:{instance_id}"`, the registry key. -/
def instanceKey (app_name instance_id : String) : String :=
  app_name ++ ":" ++ instance_id

/-- `_get_ports_for_app`: the app's strategy candidates, or the default
range for an unknown app or an empty candidate list (ANY). -/
def get_ports_for_app (cfg : CoordinatorConfig) (app_name : String) : List Int :=
  match dictGet cfg.apps app_name with
  | none => rangeInt cfg.default_port_range.1 cfg.default_port_range.2
  | some app =>
      let ports := app.get_available_ports
      if ports.isEmpty then rangeInt cfg.default_port_range.1 cfg.default_port_range.2
      else ports

/-- `_get_used_ports`: ports of all currently registered instances
(a set in Python; only membership is ever used). -/
def usedPorts (s : PMState) : List Int :=
  s.active_instances.map (fun kv => kv.2.port)

/-- The `ValueError` message raised on exhaustion. -/
def exhaustMsg (app_name : String) : String :=
  "No available ports for app \x27" ++ app_name ++ "\x27"

/-- The candidate-scan half of `allocate_port` (from the
`candidate_ports = ...` line to the end): the first candidate that is
unheld and bindable wins and is inserted; otherwise `ValueError`. -/
def allocateScan (bindable : Int → Bool) (now : String) (s : PMState)
    (app_name iid : String) (pid : Int) :
    Except String (Int × String) × PMState :=
  match (get_ports_for_app s.config app_name).find?
      (fun p => !((usedPorts s).contains p) && bindable p) with
  | some port =>
      let act := dictInsert s.active_instances (instanceKey app_name iid)
        ⟨app_name, iid, port, pid, now⟩
      (Except.ok (port, iid), { s with active_instances := act })
  | none => (Except.error (exhaustMsg app_name), s)

/-- `instance_id or str(uuid.uuid4())[:8]`: Python `or` also replaces
the empty string; `genId` stands for the generated fragment. -/
def resolveId (genId : String) (instance_id : Option String) : String :=
  match instance_id with
  | some i => if i == "" then genId else i
  | none => genId

/-- `allocate_port` after the instance id has been resolved: the
idempotence check, the stale-entry discard, then the candidate scan. -/
def allocateGo (alive bindable : Int → Bool) (now : String) (s : PMState)
    (app_name iid : String) (pid : Int) :
    Except String (Int × String) × PMState :=
  match dictGet s.active_instances (instanceKey app_name iid) with
  | some existing =>
      if alive existing.pid then (Except.ok (existing.port, iid), s)
      else allocateScan bindable now
        { s with active_instances :=
            dictErase s.active_instances (instanceKey app_name iid) } app_name iid pid
  | none => allocateScan bindable now s app_name iid pid

/-- `allocate_port`. -/
def allocate_port (alive bindable : Int → Bool) (genId now : String)
    (s : PMState) (app_name : String) (instance_id : Option String) (pid : Int) :
    Except String (Int × String) × PMState :=
  allocateGo alive bindable now s app_name (resolveId genId instance_id) pid

/-- `release_port`.  `if instance_id:` and `if pid:` are Python
truthiness tests (empty string and `0` are falsy); when the
`instance_id` key is absent control falls through to the pid branch. -/
def release_port (s : PMState) (app_name : String)
    (instance_id : Option String) (pid : Option Int) : Bool × PMState :=
  let byId : Option (Bool × PMState) :=
    match instance_id with
    | some i =>
        if i == "" then none
        else
          match dictGet s.active_instances (instanceKey app_name i) with
          | some _ =>
              let act := dictErase s.active_instances (instanceKey app_name i)
              some (true, { s with active_instances := act })
          | none => none
    | none => none
  match byId with
  | some r => r
  | none =>
      match pid with
      | some p =>
          if p == 0 then (false, s)
          else
            let ks := (s.active_instances.filter
              (fun kv => kv.2.pid == p && kv.2.app_name == app_name)).map (fun kv => kv.1)
            (decide (0 < ks.length),
             { s with active_instances :=
                 ks.foldl (fun l k => dictErase l k) s.active_instances })
      | none => (false, s)

/-- `cleanup_dead_instances`: collect the keys of entries whose pid is
gone, delete each, report how many. -/
def cleanup_dead_instances (alive : Int → Bool) (s : PMState) : Nat × PMState :=
  let dead := (s.active_instances.filter (fun kv => !(alive kv.2.pid))).map (fun kv => kv.1)
  (dead.length,
   { s with active_instances := dead.foldl (fun l k => dictErase l k) s.active_instances })

/-- `get_active_instances`: sweep, then list the values. -/
def get_active_instances (alive : Int → Bool) (s : PMState) :
    List ActiveInstance × PMState :=
  let r := cleanup_dead_instances alive s
  ((r.2.active_instances.map (fun kv => kv.2)), r.2)

/-- `get_instances_for_app`: sweep, then filter the values by app. -/
def get_instances_for_app (alive : Int → Bool) (s : PMState) (app_name : String) :
    List ActiveInstance × PMState :=
  let r := cleanup_dead_instances alive s
  (((r.2.active_instances.map (fun kv => kv.2)).filter (fun i => i.app_name == app_name)), r.2)

/-- `add_app`: register and persist. -/
def add_app (s : PMState) (app : AppConfig) : PMState :=
  let cfg := { s.config with apps := dictInsert s.config.apps app.name app }
  { s with config := cfg, configFile := some (save_config cfg) }

/-- `remove_app`: unregister and persist when present. -/
def remove_app (s : PMState) (n : String) : Bool × PMState :=
  if (dictGet s.config.apps n).isSome then
    let cfg := { s.config with apps := dictErase s.config.apps n }
    (true, { s with config := cfg, configFile := some (save_config cfg) })
  else (false, s)

/-- A fresh manager: config as loaded, empty registry. -/
def initState (cfg : CoordinatorConfig) : PMState :=
  { config := cfg, active_instances := [], configFile := none }

/-! ### Operation sequences -/

/-- One boundary call, with its environment snapshot (liveness and
bindability change between calls as outside processes come and go). -/
inductive Op where
  | alloc (alive bindable : Int → Bool) (genId now : String)
      (app : String) (iid : Option String) (pid : Int) : Op
  | release (app : String) (iid : Option String) (pid : Option Int) : Op

/-- The state transition of one call. -/
def applyOp (s : PMState) : Op → PMState
  | .alloc alive bindable g n app iid pid => (allocate_port alive bindable g n s app iid pid).2
  | .release app iid pid => (release_port s app iid pid).2

/-- Running a sequence of calls. -/
def runOps (s : PMState) (ops : List Op) : PMState :=
  ops.foldl applyOp s

/-- No two registered instances hold the same port. -/
def distinctPorts (s : PMState) : Prop :=
  (s.active_instances.map (fun kv => kv.2.port)).Nodup

/-- The registry keys are pairwise distinct (always true of a Python
dict; association lists need it stated). -/
def keysNodup (s : PMState) : Prop :=
  (s.active_instances.map (fun kv => kv.1)).Nodup

/-! ### Concrete example data (used by witnesses and counterexamples) -/

/-- An empty coordinator config with the defaults. -/
def cfg0 : CoordinatorConfig :=
  { coordinator_port := 9000, default_port_range := (8100, 8199), apps := [] }

/-- An app with the List strategy over the single port 8000. -/
def appL : AppConfig :=
  { name := "a", path := "p", command := "c", port_strategy := .list,
    port := none, port_range := none, ports := some [8000], port_step := none }

def cfgA : CoordinatorConfig :=
  { coordinator_port := 9000, default_port_range := (8100, 8199), apps := [("a", appL)] }

/-- A registered instance of `appL` whose pid 5 will be dead. -/
def instA : ActiveInstance :=
  { app_name := "a", instance_id := "i", port := 8000, pid := 5, started_at := "t0" }

def sA : PMState := { config := cfgA, active_instances := [("a:i", instA)], configFile := none }

/-- An instance of app `a` with instance id `j` and pid 7. -/
def instJ : ActiveInstance :=
  { app_name := "a", instance_id := "j", port := 8001, pid := 7, started_at := "t" }

def sJ : PMState := { config := cfg0, active_instances := [("a:j", instJ)], configFile := none }

/-- An instance registered for the pair `("a", "b:c")`: its flattened
registry key `"a:b:c"` coincides with the key of `("a:b", "c")`. -/
def instB : ActiveInstance :=
  { app_name := "a", instance_id := "b:c", port := 8100, pid := 5, started_at := "t" }

def sB : PMState := { config := cfg0, active_instances := [("a:b:c", instB)], configFile := none }

/-- A live instance (pid 42) of app `w`. -/
def instW : ActiveInstance :=
  { app_name := "w", instance_id := "i1", port := 8055, pid := 42, started_at := "t1" }

def sW : PMState := { config := cfg0, active_instances := [("w:i1", instW)], configFile := none }

/-- A second, dead instance (pid 43) alongside `instW`. -/
def instX : ActiveInstance :=
  { app_name := "w", instance_id := "i2", port := 8056, pid := 43, started_at := "t2" }

def sWX : PMState :=
  { config := cfg0, active_instances := [("w:i1", instW), ("w:i2", instX)], configFile := none }

/-- An app with the List strategy over the single port 8003, for an
exhaustion run from an empty registry. -/
def appB3 : AppConfig :=
  { name := "b", path := "p", command := "c", port_strategy := .list,
    port := none, port_range := none, ports := some [8003], port_step := none }

def cfgB3 : CoordinatorConfig :=
  { coordinator_port := 9000, default_port_range := (8100, 8199), apps := [("b", appB3)] }

/-- Example apps for the strategy-resolver witness. -/
def appD : AppConfig :=
  { name := "d", path := "pp", command := "cc", port_strategy := .dedicated,
    port := some 9100, port_range := none, ports := none, port_step := none }

def appR : AppConfig :=
  { name := "web1", path := "p", command := "c", port_strategy := .range,
    port := none, port_range := some (8010, 8012), ports := none, port_step := none }

def appS : AppConfig :=
  { name := "st", path := "q", command := "r", port_strategy := .stepped,
    port := none, port_range := none, ports := none,
    port_step := some { start := 8200, step := 10, count := 3 } }

/-- An app with the Any strategy (no strategy-specific fields). -/
def appAny : AppConfig :=
  { name := "free", path := "fp", command := "fc", port_strategy := .any,
    port := none, port_range := none, ports := none, port_step := none }

/-- A two-app config for the round-trip witness. -/
def cfg7 : CoordinatorConfig :=
  { coordinator_port := 9001, default_port_range := (8000, 8010),
    apps := [("d", appD), ("st", appS)] }

/-! ## Lemmas about the dict operations -/

theorem dictGet_eq_none {α : Type} {l : List (String × α)} {k : String}
    (h : dictGet l k = none) : ∀ kv ∈ l, ¬ kv.1 = k := by
  intro kv hkv hk
  unfold dictGet at h
  cases hf : List.find? (fun kv => kv.1 == k) l with
  | some x => rw [hf] at h; simp at h
  | none =>
      rw [List.find?_eq_none] at hf
      exact hf kv hkv (by simp [hk])

theorem dictGet_cons_ne {α : Type} (kv : String × α) (t : List (String × α))
    (k2 : String) (h : ¬ kv.1 = k2) : dictGet (kv :: t) k2 = dictGet t k2 := by
  unfold dictGet
  rw [List.find?_cons_of_neg]
  simpa using h

theorem dictGet_cons_eq {α : Type} (kv : String × α) (t : List (String × α))
    {k2 : String} (h : kv.1 = k2) : dictGet (kv :: t) k2 = some kv.2 := by
  unfold dictGet
  rw [List.find?_cons_of_pos]
  · rfl
  · simp [h]

theorem not_mem_keys_of_get_none {α : Type} {l : List (String × α)} {k : String}
    (h : dictGet l k = none) : k ∉ l.map (fun kv => kv.1) := by
  intro hmem
  rcases List.mem_map.mp hmem with ⟨kv, hkv, hk⟩
  exact dictGet_eq_none h kv hkv hk

theorem key_not_mem_erase {α : Type} (l : List (String × α)) (k : String) :
    k ∉ (dictErase l k).map (fun kv => kv.1) := by
  intro hmem
  rcases List.mem_map.mp hmem with ⟨kv, hkv, hk⟩
  have hp := List.of_mem_filter hkv
  simp only [bne_iff_ne, ne_eq] at hp
  exact hp hk

theorem dictInsert_of_not_mem {α : Type} {l : List (String × α)} {k : String} (v : α)
    (h : k ∉ l.map (fun kv => kv.1)) : dictInsert l k v = l ++ [(k, v)] := by
  unfold dictInsert
  have : l.any (fun kv => kv.1 == k) = false := by
    rw [List.any_eq_false]
    intro kv hkv
    simp only [beq_iff_eq]
    intro hk
    exact h (List.mem_map.mpr ⟨kv, hkv, hk⟩)
  simp [this]

theorem dictErase_of_not_mem {α : Type} {l : List (String × α)} {k : String}
    (h : k ∉ l.map (fun kv => kv.1)) : dictErase l k = l := by
  unfold dictErase
  rw [List.filter_eq_self]
  intro kv hkv
  simp only [bne_iff_ne, ne_eq]
  intro hk
  exact h (List.mem_map.mpr ⟨kv, hkv, hk⟩)

theorem dictGet_erase_ne {α : Type} (l : List (String × α)) {k k2 : String}
    (h : ¬ k = k2) : dictGet (dictErase l k) k2 = dictGet l k2 := by
  induction l with
  | nil => rfl
  | cons kv t ih =>
      unfold dictErase at *
      rw [List.filter_cons]
      by_cases hk : kv.1 = k
      · have h1 : (kv.1 != k) = false := by simp [hk]
        rw [h1]
        simp only [Bool.false_eq_true, if_false]
        rw [dictGet_cons_ne kv t k2 (by rw [hk]; exact h)]
        exact ih
      · have h1 : (kv.1 != k) = true := by simp [hk]
        rw [h1]
        simp only [if_true]
        by_cases hk2 : kv.1 = k2
        · rw [dictGet_cons_eq _ _ hk2, dictGet_cons_eq _ _ hk2]
        · rw [dictGet_cons_ne _ _ _ hk2, dictGet_cons_ne _ _ _ hk2]
          exact ih

theorem dictGet_append_single {α : Type} (l : List (String × α)) {k : String}
    (k2 : String) (v : α) (h : ¬ k = k2) :
    dictGet (l ++ [(k, v)]) k2 = dictGet l k2 := by
  unfold dictGet
  rw [List.find?_append]
  cases hf : l.find? (fun kv => kv.1 == k2) with
  | some x => simp
  | none =>
      have h2 : ((k, v).1 == k2) = false := by simpa using h
      simp [List.find?, h2]

theorem dictGet_replace_ne {α : Type} (l : List (String × α)) {k k2 : String}
    (v : α) (h : ¬ k = k2) :
    dictGet (l.map (fun kv => if kv.1 == k then (k, v) else kv)) k2 = dictGet l k2 := by
  induction l with
  | nil => rfl
  | cons kv t ih =>
      rw [List.map_cons]
      by_cases hk : kv.1 = k
      · have hif : (if (kv.1 == k) = true then (k, v) else kv) = (k, v) := by simp [hk]
        rw [hif]
        rw [dictGet_cons_ne (k, v) _ k2 h]
        rw [dictGet_cons_ne kv t k2 (by rw [hk]; exact h)]
        exact ih
      · have hif : (if (kv.1 == k) = true then (k, v) else kv) = kv := by simp [hk]
        rw [hif]
        by_cases hk2 : kv.1 = k2
        · rw [dictGet_cons_eq _ _ hk2, dictGet_cons_eq _ _ hk2]
        · rw [dictGet_cons_ne _ _ _ hk2, dictGet_cons_ne _ _ _ hk2]
          exact ih

theorem dictGet_insert_ne {α : Type} (l : List (String × α)) {k k2 : String}
    (v : α) (h : ¬ k = k2) : dictGet (dictInsert l k v) k2 = dictGet l k2 := by
  unfold dictInsert
  by_cases ha : l.any (fun kv => kv.1 == k) = true
  · simp only [ha, if_true]
    exact dictGet_replace_ne l v h
  · simp only [ha, if_false]
    exact dictGet_append_single l k2 v h

/-! ## Lemmas about sequential key deletion (the `for key: del d[key]` loops) -/

theorem foldl_erase_cons {α : Type} (kv : String × α) (t : List (String × α))
    (ks : List String) :
    kv.1 ∉ ks →
      ks.foldl (fun l k => dictErase l k) (kv :: t) =
        kv :: ks.foldl (fun l k => dictErase l k) t := by
  induction ks generalizing t with
  | nil => intro _; rfl
  | cons k0 ks ih =>
      intro h
      have hne : ¬ kv.1 = k0 := fun hc => h (by rw [hc]; exact List.mem_cons_self _ _)
      have hstep : dictErase (kv :: t) k0 = kv :: dictErase t k0 := by
        unfold dictErase
        rw [List.filter_cons]
        simp [hne]
      rw [List.foldl_cons, List.foldl_cons]
      show ks.foldl _ (dictErase (kv :: t) k0) = kv :: ks.foldl _ (dictErase t k0)
      rw [hstep]
      exact ih (dictErase t k0) (fun hm => h (List.mem_cons_of_mem _ hm))

theorem foldl_erase_filter {α : Type} (r : String × α → Bool) (l : List (String × α))
    (h : (l.map (fun kv => kv.1)).Nodup) :
    ((l.filter r).map (fun kv => kv.1)).foldl (fun acc k => dictErase acc k) l =
      l.filter (fun kv => !(r kv)) := by
  induction l with
  | nil => rfl
  | cons kv t ih =>
      rw [List.map_cons, List.nodup_cons] at h
      have hnm : kv.1 ∉ t.map (fun kv => kv.1) := h.1
      have ht := h.2
      rw [List.filter_cons, List.filter_cons]
      by_cases hr : r kv = true
      · rw [if_pos hr, if_neg (by simp [hr])]
        rw [List.map_cons, List.foldl_cons]
        have hself : dictErase (kv :: t) kv.1 = dictErase t kv.1 := by
          unfold dictErase
          rw [List.filter_cons]
          simp
        rw [hself, dictErase_of_not_mem hnm]
        exact ih ht
      · have hr2 : r kv = false := by
          cases hb : r kv
          · rfl
          · exact absurd hb hr
        rw [if_neg hr, if_pos (by simp [hr2])]
        have hsub : kv.1 ∉ (t.filter r).map (fun kv => kv.1) := by
          intro hm
          rcases List.mem_map.mp hm with ⟨x, hx, hk⟩
          exact hnm (List.mem_map.mpr ⟨x, List.mem_of_mem_filter hx, hk⟩)
        rw [foldl_erase_cons kv t _ hsub]
        rw [ih ht]

theorem nodup_map_foldl_erase {α β : Type} (f : String × α → β)
    (ks : List String) (l : List (String × α)) (h : (l.map f).Nodup) :
    ((ks.foldl (fun acc k => dictErase acc k) l).map f).Nodup := by
  induction ks generalizing l with
  | nil => exact h
  | cons k0 ks ih =>
      rw [List.foldl_cons]
      refine ih (dictErase l k0) ?_
      have hsub : ((dictErase l k0).map f).Sublist (l.map f) := by
        unfold dictErase
        exact (List.filter_sublist _).map f
      exact h.sublist hsub

/-! ## The candidate scan and the port-distinctness invariant -/

theorem allocateScan_distinct (bindable : Int → Bool) (now : String) (s : PMState)
    (app_name iid : String) (pid : Int)
    (hk : instanceKey app_name iid ∉ s.active_instances.map (fun kv => kv.1))
    (h : distinctPorts s) :
    distinctPorts (allocateScan bindable now s app_name iid pid).2 := by
  unfold allocateScan
  cases hf : (get_ports_for_app s.config app_name).find?
      (fun p => !((usedPorts s).contains p) && bindable p) with
  | none => exact h
  | some port =>
      unfold distinctPorts at *
      show ((dictInsert s.active_instances (instanceKey app_name iid)
        ⟨app_name, iid, port, pid, now⟩).map (fun kv => kv.2.port)).Nodup
      rw [dictInsert_of_not_mem _ hk]
      rw [List.map_append]
      rw [List.nodup_append]
      refine ⟨h, List.nodup_singleton _, ?_⟩
      have hp := List.find?_some hf
      simp only [Bool.and_eq_true, Bool.not_eq_true'] at hp
      have hnp : port ∉ usedPorts s := by
        simpa [List.elem_eq_mem] using hp.1
      intro a ha hb
      simp only [List.map_cons, List.map_nil, List.mem_singleton] at hb
      subst hb
      exact hnp ha

theorem distinctPorts_erase (s : PMState) (k : String) (h : distinctPorts s) :
    distinctPorts { s with active_instances := dictErase s.active_instances k } := by
  unfold distinctPorts at *
  refine h.sublist ?_
  unfold dictErase
  exact (List.filter_sublist _).map _

theorem allocateGo_distinct (alive bindable : Int → Bool) (now : String) (s : PMState)
    (app_name iid : String) (pid : Int) (h : distinctPorts s) :
    distinctPorts (allocateGo alive bindable now s app_name iid pid).2 := by
  unfold allocateGo
  cases hg : dictGet s.active_instances (instanceKey app_name iid) with
  | some existing =>
      by_cases ha : alive existing.pid = true
      · simp only [ha, if_true]
        exact h
      · have ha2 : alive existing.pid = false := by
          cases hb : alive existing.pid
          · rfl
          · exact absurd hb ha
        simp only [ha2, Bool.false_eq_true, if_false]
        exact allocateScan_distinct bindable now _ app_name iid pid
          (key_not_mem_erase _ _) (distinctPorts_erase s _ h)
  | none =>
      exact allocateScan_distinct bindable now s app_name iid pid
        (not_mem_keys_of_get_none hg) h

theorem allocate_distinct (alive bindable : Int → Bool) (genId now : String)
    (s : PMState) (app_name : String) (instance_id : Option String) (pid : Int)
    (h : distinctPorts s) :
    distinctPorts (allocate_port alive bindable genId now s app_name instance_id pid).2 :=
  allocateGo_distinct alive bindable now s app_name (resolveId genId instance_id) pid h

/-! ## Equations for the release paths -/

theorem release_none_none (s : PMState) (app : String) :
    release_port s app none none = (false, s) := rfl

theorem release_zero (s : PMState) (app : String) (p : Int) (hp : (p == 0) = true) :
    release_port s app none (some p) = (false, s) := by
  simp [release_port, hp]

theorem release_pid_raw (s : PMState) (app : String) (p : Int) (hp : (p == 0) = false) :
    release_port s app none (some p) =
      (decide (0 < ((s.active_instances.filter
          (fun kv => kv.2.pid == p && kv.2.app_name == app)).length)),
       { s with active_instances :=
           ((s.active_instances.filter
               (fun kv => kv.2.pid == p && kv.2.app_name == app)).map
             (fun kv => kv.1)).foldl (fun l k => dictErase l k) s.active_instances }) := by
  simp [release_port, hp]

theorem release_hit (s : PMState) (app i : String) (pid : Option Int)
    (inst : ActiveInstance) (hi : (i == "") = false)
    (hg : dictGet s.active_instances (instanceKey app i) = some inst) :
    release_port s app (some i) pid =
      (true, { s with active_instances :=
                 dictErase s.active_instances (instanceKey app i) }) := by
  simp [release_port, hi, hg]

theorem release_fallthrough (s : PMState) (app i : String) (pid : Option Int)
    (h : (i == "") = true ∨ dictGet s.active_instances (instanceKey app i) = none) :
    release_port s app (some i) pid = release_port s app none pid := by
  rcases h with h | h
  · simp [release_port, h]
  · by_cases hi : (i == "") = true
    · simp [release_port, hi]
    · simp [release_port, hi, h]

theorem release_pid_eq (s : PMState) (app : String) (p : Int)
    (hp : (p == 0) = false) (hkeys : keysNodup s) :
    release_port s app none (some p) =
      (decide (0 < ((s.active_instances.filter
          (fun kv => kv.2.pid == p && kv.2.app_name == app)).length)),
       { s with active_instances :=
           (s.active_instances.filter
             (fun kv => !(kv.2.pid == p && kv.2.app_name == app))) }) := by
  rw [release_pid_raw s app p hp]
  rw [foldl_erase_filter _ _ hkeys]

theorem release_none_distinct (s : PMState) (app : String) (pid : Option Int)
    (h : distinctPorts s) : distinctPorts (release_port s app none pid).2 := by
  cases pid with
  | none => rw [release_none_none]; exact h
  | some p =>
      by_cases hp : (p == 0) = true
      · rw [release_zero s app p hp]; exact h
      · have hp2 : (p == 0) = false := by
          cases hb : (p == 0)
          · rfl
          · exact absurd hb hp
        rw [release_pid_raw s app p hp2]
        exact nodup_map_foldl_erase _ _ _ h

theorem release_distinct (s : PMState) (app : String) (iid : Option String)
    (pid : Option Int) (h : distinctPorts s) :
    distinctPorts (release_port s app iid pid).2 := by
  cases iid with
  | none => exact release_none_distinct s app pid h
  | some i =>
      by_cases hi : (i == "") = true
      · rw [release_fallthrough s app i pid (Or.inl hi)]
        exact release_none_distinct s app pid h
      · have hi2 : (i == "") = false := by
          cases hb : (i == "")
          · rfl
          · exact absurd hb hi
        cases hg : dictGet s.active_instances (instanceKey app i) with
        | none =>
            rw [release_fallthrough s app i pid (Or.inr hg)]
            exact release_none_distinct s app pid h
        | some inst =>
            rw [release_hit s app i pid inst hi2 hg]
            exact distinctPorts_erase s _ h

/-! ## Equations for the sweep -/

theorem cleanup_eq (alive : Int → Bool) (s : PMState) (hkeys : keysNodup s) :
    cleanup_dead_instances alive s =
      ((s.active_instances.filter (fun kv => !(alive kv.2.pid))).length,
       { s with active_instances :=
           s.active_instances.filter (fun kv => alive kv.2.pid) }) := by
  unfold cleanup_dead_instances
  simp only [List.length_map]
  rw [foldl_erase_filter _ _ hkeys]
  simp only [Bool.not_not]

/-! ## Frame lemmas: no operation on the registry touches the config -/

theorem allocateScan_frame (bindable : Int → Bool) (now : String) (s : PMState)
    (app_name iid : String) (pid : Int) :
    (allocateScan bindable now s app_name iid pid).2.config = s.config ∧
    (allocateScan bindable now s app_name iid pid).2.configFile = s.configFile := by
  unfold allocateScan
  cases hf : (get_ports_for_app s.config app_name).find?
      (fun p => !((usedPorts s).contains p) && bindable p) with
  | none => exact ⟨rfl, rfl⟩
  | some port => exact ⟨rfl, rfl⟩

theorem allocateGo_frame (alive bindable : Int → Bool) (now : String) (s : PMState)
    (app_name iid : String) (pid : Int) :
    (allocateGo alive bindable now s app_name iid pid).2.config = s.config ∧
    (allocateGo alive bindable now s app_name iid pid).2.configFile = s.configFile := by
  unfold allocateGo
  cases hg : dictGet s.active_instances (instanceKey app_name iid) with
  | some existing =>
      by_cases ha : alive existing.pid = true
      · simp [ha]
      · have ha2 : alive existing.pid = false := by
          cases hb : alive existing.pid
          · rfl
          · exact absurd hb ha
        simp only [ha2, Bool.false_eq_true, if_false]
        exact allocateScan_frame bindable now _ app_name iid pid
  | none => exact allocateScan_frame bindable now s app_name iid pid

theorem allocate_frame (alive bindable : Int → Bool) (genId now : String)
    (s : PMState) (app_name : String) (instance_id : Option String) (pid : Int) :
    (allocate_port alive bindable genId now s app_name instance_id pid).2.config = s.config ∧
    (allocate_port alive bindable genId now s app_name instance_id pid).2.configFile =
      s.configFile :=
  allocateGo_frame alive bindable now s app_name (resolveId genId instance_id) pid

theorem release_frame (s : PMState) (app : String) (iid : Option String)
    (pid : Option Int) :
    (release_port s app iid pid).2.config = s.config ∧
    (release_port s app iid pid).2.configFile = s.configFile := by
  have hnone : ∀ pid2 : Option Int, (release_port s app none pid2).2.config = s.config ∧
      (release_port s app none pid2).2.configFile = s.configFile := by
    intro pid2
    cases pid2 with
    | none => exact ⟨rfl, rfl⟩
    | some p =>
        by_cases hp : (p == 0) = true
        · rw [release_zero s app p hp]
          exact ⟨rfl, rfl⟩
        · have hp2 : (p == 0) = false := by
            cases hb : (p == 0)
            · rfl
            · exact absurd hb hp
          rw [release_pid_raw s app p hp2]
          exact ⟨rfl, rfl⟩
  cases iid with
  | none => exact hnone pid
  | some i =>
      by_cases hi : (i == "") = true
      · rw [release_fallthrough s app i pid (Or.inl hi)]
        exact hnone pid
      · have hi2 : (i == "") = false := by
          cases hb : (i == "")
          · rfl
          · exact absurd hb hi
        cases hg : dictGet s.active_instances (instanceKey app i) with
        | none =>
            rw [release_fallthrough s app i pid (Or.inr hg)]
            exact hnone pid
        | some inst =>
            rw [release_hit s app i pid inst hi2 hg]
            exact ⟨rfl, rfl⟩

theorem cleanup_frame (alive : Int → Bool) (s : PMState) :
    (cleanup_dead_instances alive s).2.config = s.config ∧
    (cleanup_dead_instances alive s).2.configFile = s.configFile :=
  ⟨rfl, rfl⟩

/-! ## The idempotent (re-entrant) allocation path -/

theorem allocate_hit (alive bindable : Int → Bool) (g now : String) (s : PMState)
    (app i : String) (pid : Int) (inst : ActiveInstance)
    (hi : ¬ i = "")
    (hg : dictGet s.active_instances (instanceKey app i) = some inst)
    (ha : alive inst.pid = true) :
    allocate_port alive bindable g now s app (some i) pid =
      (Except.ok (inst.port, i), s) := by
  unfold allocate_port resolveId
  have hi2 : (i == "") = false := by simp [hi]
  simp only [hi2, Bool.false_eq_true, if_false]
  unfold allocateGo
  rw [hg]
  simp [ha]

/-! ## The exhaustion path -/

theorem allocateScan_err (bindable : Int → Bool) (now : String) (s : PMState)
    (app_name iid : String) (pid : Int) (m : String)
    (h : (allocateScan bindable now s app_name iid pid).1 = Except.error m) :
    m = exhaustMsg app_name ∧ (allocateScan bindable now s app_name iid pid).2 = s := by
  unfold allocateScan at h ⊢
  revert h
  cases hf : (get_ports_for_app s.config app_name).find?
      (fun p => !((usedPorts s).contains p) && bindable p) with
  | some port =>
      intro h
      simp at h
  | none =>
      intro h
      refine ⟨?_, rfl⟩
      have h2 : Except.error (exhaustMsg app_name) =
          (Except.error m : Except String (Int × String)) := h
      injection h2 with h3
      exact h3.symm

theorem resolveId_some (g i : String) (hi : ¬ i = "") : resolveId g (some i) = i := by
  have hi2 : (i == "") = false := by simp [hi]
  show (if (i == "") = true then g else i) = i
  rw [hi2]
  simp

theorem allocate_port_some (alive bindable : Int → Bool) (g now : String) (s : PMState)
    (app i : String) (pid : Int) (hi : ¬ i = "") :
    allocate_port alive bindable g now s app (some i) pid =
      allocateGo alive bindable now s app i pid := by
  unfold allocate_port
  rw [resolveId_some g i hi]

theorem allocateGo_exhaustion (alive bindable : Int → Bool) (now : String) (s : PMState)
    (app i : String) (pid : Int) (m : String)
    (herr : (allocateGo alive bindable now s app i pid).1 = Except.error m) :
    m = exhaustMsg app ∧
    (allocateGo alive bindable now s app i pid).2 =
      { s with active_instances := dictErase s.active_instances (instanceKey app i) } := by
  unfold allocateGo at herr ⊢
  revert herr
  cases hg : dictGet s.active_instances (instanceKey app i) with
  | some existing =>
      intro herr
      simp only [] at herr ⊢
      by_cases ha : alive existing.pid = true
      · rw [if_pos ha] at herr
        simp at herr
      · rw [if_neg ha] at herr
        rw [if_neg ha]
        exact allocateScan_err bindable now _ app i pid m herr
  | none =>
      intro herr
      have hs := allocateScan_err bindable now s app i pid m herr
      refine ⟨hs.1, ?_⟩
      rw [hs.2]
      have he : dictErase s.active_instances (instanceKey app i) = s.active_instances :=
        dictErase_of_not_mem (not_mem_keys_of_get_none hg)
      rw [he]

/-! ## Sequences of boundary calls preserve port distinctness -/

theorem step_distinct (s : PMState) (op : Op) (h : distinctPorts s) :
    distinctPorts (applyOp s op) := by
  cases op with
  | alloc alive bindable g n app iid pid =>
      exact allocate_distinct alive bindable g n s app iid pid h
  | release app iid pid => exact release_distinct s app iid pid h

theorem runOps_distinct (ops : List Op) :
    ∀ s : PMState, distinctPorts s → distinctPorts (runOps s ops) := by
  induction ops with
  | nil => intro s h; exact h
  | cons op ops ih =>
      intro s h
      exact ih (applyOp s op) (step_distinct s op h)

/-! ## Claim theorems -/

/-- Claim C1: for every sequence of `allocate_port` / `release_port`
calls run from a fresh manager, no two entries present simultaneously
in the instance registry have the same port. -/
theorem no_port_collision (cfg : CoordinatorConfig) (ops : List Op) :
    distinctPorts (runOps (initState cfg) ops) :=
  runOps_distinct ops (initState cfg) (by simp [distinctPorts, initState])

/-- Claim C2: when the key `(app, i)` is registered and the recorded
pid is alive, `allocate_port` returns the registered `(port, i)` and
leaves the whole state (in particular the registry size) unchanged. -/
theorem allocate_idempotent (alive bindable : Int → Bool) (g now : String)
    (s : PMState) (app i : String) (pid : Int) (inst : ActiveInstance)
    (hi : ¬ i = "")
    (hg : dictGet s.active_instances (instanceKey app i) = some inst)
    (ha : alive inst.pid = true) :
    (allocate_port alive bindable g now s app (some i) pid).1 =
        Except.ok (inst.port, i) ∧
    (allocate_port alive bindable g now s app (some i) pid).2.active_instances.length =
        s.active_instances.length := by
  rw [allocate_hit alive bindable g now s app i pid inst hi hg ha]
  exact ⟨rfl, rfl⟩

/-- Witness for C2 at a concrete live entry. -/
theorem allocate_idempotent_witness :
    (allocate_port (fun p => p == 42) (fun _ => true) "g" "t9" sW "w" (some "i1") 7).1 =
        Except.ok (instW.port, "i1") ∧
    (allocate_port (fun p => p == 42) (fun _ => true) "g" "t9" sW "w" (some "i1") 7).2.active_instances.length =
        sW.active_instances.length :=
  allocate_idempotent (fun p => p == 42) (fun _ => true) "g" "t9" sW "w" "i1" 7 instW
    (by decide) rfl rfl

/-- Claim C10: on the re-entrant path the stored `ActiveInstance` is
left entirely unchanged — its recorded pid and `started_at` are not
updated even when the caller supplies a different pid. -/
theorem allocate_reentrant_keeps_entry (alive bindable : Int → Bool) (g now : String)
    (s : PMState) (app i : String) (pid2 : Int) (inst : ActiveInstance)
    (hi : ¬ i = "")
    (hg : dictGet s.active_instances (instanceKey app i) = some inst)
    (ha : alive inst.pid = true) :
    dictGet (allocate_port alive bindable g now s app (some i) pid2).2.active_instances
        (instanceKey app i) = some inst := by
  rw [allocate_hit alive bindable g now s app i pid2 inst hi hg ha]
  exact hg

/-- Witness for C10: the caller passes pid 99 ≠ 42 and a fresh
timestamp; the stored entry (pid 42, `started_at` "t1") survives. -/
theorem allocate_reentrant_keeps_entry_witness :
    dictGet (allocate_port (fun p => p == 42) (fun _ => true) "g" "t9" sW "w"
        (some "i1") 99).2.active_instances (instanceKey "w" "i1") = some instW :=
  allocate_reentrant_keeps_entry (fun p => p == 42) (fun _ => true) "g" "t9" sW "w" "i1"
    99 instW (by decide) rfl rfl

/-- Claim C9: `allocate_port`, `release_port` and
`cleanup_dead_instances` neither modify the `CoordinatorConfig` nor
write the config file. -/
theorem registry_ops_leave_config (alive bindable : Int → Bool) (g now : String)
    (s : PMState) (app : String) (iid : Option String) (pid : Int)
    (iid2 : Option String) (pid2 : Option Int) :
    ((allocate_port alive bindable g now s app iid pid).2.config = s.config ∧
     (allocate_port alive bindable g now s app iid pid).2.configFile = s.configFile) ∧
    ((release_port s app iid2 pid2).2.config = s.config ∧
     (release_port s app iid2 pid2).2.configFile = s.configFile) ∧
    ((cleanup_dead_instances alive s).2.config = s.config ∧
     (cleanup_dead_instances alive s).2.configFile = s.configFile) :=
  ⟨allocate_frame alive bindable g now s app iid pid,
   release_frame s app iid2 pid2,
   cleanup_frame alive s⟩

/-- Claim C3 (amended): when `allocate_port` fails with exhaustion, the
error message names the app, no entry is added, and the registry equals
the pre-call registry with the requested key erased — i.e. unchanged
except that a stale entry under the caller's own key (dead pid) has
already been discarded; with no entry under the key, the state is
exactly unchanged. -/
theorem allocate_exhaustion_atomic (alive bindable : Int → Bool) (g now : String)
    (s : PMState) (app i : String) (pid : Int) (m : String)
    (hi : ¬ i = "")
    (herr : (allocate_port alive bindable g now s app (some i) pid).1 = Except.error m) :
    m = exhaustMsg app ∧
    (allocate_port alive bindable g now s app (some i) pid).2 =
      { s with active_instances := dictErase s.active_instances (instanceKey app i) } ∧
    (dictGet s.active_instances (instanceKey app i) = none →
      (allocate_port alive bindable g now s app (some i) pid).2 = s) := by
  rw [allocate_port_some alive bindable g now s app i pid hi] at herr ⊢
  have hgo := allocateGo_exhaustion alive bindable now s app i pid m herr
  refine ⟨hgo.1, hgo.2, ?_⟩
  intro h0
  rw [hgo.2]
  have he : dictErase s.active_instances (instanceKey app i) = s.active_instances :=
    dictErase_of_not_mem (not_mem_keys_of_get_none h0)
  rw [he]

/-- Witness for C3: a concrete exhaustion run (app `b`, single
unbindable candidate 8003, empty registry) hits the amended claim. -/
theorem allocate_exhaustion_atomic_witness :
    exhaustMsg "b" = exhaustMsg "b" ∧
    (allocate_port (fun _ => true) (fun _ => false) "g" "t1" (initState cfgB3) "b"
        (some "x") 7).2 =
      { initState cfgB3 with active_instances :=
          (dictErase (initState cfgB3).active_instances (instanceKey "b" "x")) } ∧
    (dictGet (initState cfgB3).active_instances (instanceKey "b" "x") = none →
      (allocate_port (fun _ => true) (fun _ => false) "g" "t1" (initState cfgB3) "b"
          (some "x") 7).2 = initState cfgB3) :=
  allocate_exhaustion_atomic (fun _ => true) (fun _ => false) "g" "t1" (initState cfgB3)
    "b" "x" 7 (exhaustMsg "b") (by decide) rfl

/-- Counterexample to C3 as stated: from state `sA` (one stale entry,
dead pid 5) the exhausted call raises the exhaustion error but the
registry is not left "exactly as it was" — the stale entry is gone. -/
theorem allocate_exhaustion_changes_registry :
    (allocate_port (fun _ => false) (fun _ => false) "g" "t1" sA "a" (some "i") 7).1 =
        Except.error (exhaustMsg "a") ∧
    (allocate_port (fun _ => false) (fun _ => false) "g" "t1" sA "a" (some "i") 7).2.active_instances = [] ∧
    ¬ sA.active_instances = [] :=
  ⟨rfl, rfl, by decide⟩

/-- Claim C4: the sweep removes exactly the entries with a dead pid
(order and content of live entries untouched), returns the number
removed, and the read paths sweep first, so they never report an entry
with a dead pid. -/
theorem cleanup_sweep (alive : Int → Bool) (s : PMState) (app : String)
    (hkeys : keysNodup s) :
    (cleanup_dead_instances alive s).2.active_instances =
        s.active_instances.filter (fun kv => alive kv.2.pid) ∧
    (cleanup_dead_instances alive s).1 =
        (s.active_instances.filter (fun kv => !(alive kv.2.pid))).length ∧
    (∀ inst ∈ (get_active_instances alive s).1, alive inst.pid = true) ∧
    (∀ inst ∈ (get_instances_for_app alive s app).1, alive inst.pid = true) := by
  have hc := cleanup_eq alive s hkeys
  refine ⟨by rw [hc], by rw [hc], ?_, ?_⟩
  · intro inst hmem
    unfold get_active_instances at hmem
    rw [hc] at hmem
    simp only [] at hmem
    rcases List.mem_map.mp hmem with ⟨kv, hkv, hkveq⟩
    rw [← hkveq]
    exact (List.mem_filter.mp hkv).2
  · intro inst hmem
    unfold get_instances_for_app at hmem
    rw [hc] at hmem
    simp only [] at hmem
    have hm1 := (List.mem_filter.mp hmem).1
    rcases List.mem_map.mp hm1 with ⟨kv, hkv, hkveq⟩
    rw [← hkveq]
    exact (List.mem_filter.mp hkv).2

/-- Witness for C4: pid 42 is alive, pid 43 is dead; the sweep drops
exactly the dead entry. -/
theorem cleanup_sweep_witness :
    (cleanup_dead_instances (fun p => p == 42) sWX).2.active_instances =
        sWX.active_instances.filter (fun kv => (fun p => p == 42) kv.2.pid) ∧
    (cleanup_dead_instances (fun p => p == 42) sWX).1 =
        (sWX.active_instances.filter (fun kv => !((fun p => p == 42) kv.2.pid))).length ∧
    (∀ inst ∈ (get_active_instances (fun p => p == 42) sWX).1,
        (fun p => p == 42) inst.pid = true) ∧
    (∀ inst ∈ (get_instances_for_app (fun p => p == 42) sWX "w").1,
        (fun p => p == 42) inst.pid = true) :=
  cleanup_sweep (fun p => p == 42) sWX "w" (by unfold keysNodup; decide)

/-- Counterexample to C6 as stated: from `sJ` (single entry under key
`"a:j"`, pid 7), calling `release_port` with instance id `"i"` — whose
key matches nothing — and pid 7 removes the entry of the different key
`"a:j"` and returns `true`, instead of removing nothing and returning
`false`. -/
theorem release_id_falls_through_to_pid :
    (release_port sJ "a" (some "i") (some 7)).1 = true ∧
    (release_port sJ "a" (some "i") (some 7)).2.active_instances = [] ∧
    ¬ sJ.active_instances = [] ∧
    ¬ instanceKey "a" "j" = instanceKey "a" "i" :=
  ⟨rfl, rfl, by decide, by decide⟩

/-- Claim C6 (amended): with an instance id whose key is present the
call removes exactly that entry and returns true; with an instance id
whose key is absent the call falls through to the pid selector; a
(nonzero) pid selector removes exactly this app's entries with that
pid, returning true iff at least one was removed; with no applicable
selector the call returns false (matching nothing is not an error). -/
theorem release_port_spec (s : PMState) (app i : String) (pid : Option Int)
    (p : Int) (inst : ActiveInstance) :
    (¬ i = "" → dictGet s.active_instances (instanceKey app i) = some inst →
      release_port s app (some i) pid =
        (true, { s with active_instances :=
                   (dictErase s.active_instances (instanceKey app i)) })) ∧
    (dictGet s.active_instances (instanceKey app i) = none →
      release_port s app (some i) pid = release_port s app none pid) ∧
    (¬ p = 0 → keysNodup s →
      ((release_port s app none (some p)).2.active_instances =
          s.active_instances.filter (fun kv => !(kv.2.pid == p && kv.2.app_name == app)) ∧
       ((release_port s app none (some p)).1 = true ↔
          ∃ kv ∈ s.active_instances, kv.2.pid = p ∧ kv.2.app_name = app))) ∧
    release_port s app none none = (false, s) := by
  refine ⟨?_, ?_, ?_, release_none_none s app⟩
  · intro hi hg
    exact release_hit s app i pid inst (by simp [hi]) hg
  · intro hg
    by_cases hi : (i == "") = true
    · exact release_fallthrough s app i pid (Or.inl hi)
    · exact release_fallthrough s app i pid (Or.inr hg)
  · intro hp hkeys
    have hp2 : (p == 0) = false := by simp [hp]
    have he := release_pid_eq s app p hp2 hkeys
    refine ⟨by rw [he], ?_⟩
    rw [he]
    simp only [decide_eq_true_eq]
    rw [List.length_pos]
    constructor
    · intro hne
      rcases List.exists_mem_of_ne_nil _ hne with ⟨kv, hkv⟩
      have hm := List.mem_filter.mp hkv
      refine ⟨kv, hm.1, ?_⟩
      have := hm.2
      simp only [Bool.and_eq_true, beq_iff_eq] at this
      exact this
    · intro hex
      rcases hex with ⟨kv, hkv, hpid, happ⟩
      intro hnil
      have : kv ∈ s.active_instances.filter
          (fun kv => kv.2.pid == p && kv.2.app_name == app) := by
        rw [List.mem_filter]
        refine ⟨hkv, ?_⟩
        simp [hpid, happ]
      rw [hnil] at this
      exact absurd this (List.not_mem_nil kv)

/-- Witness for C6: each branch of the amended claim at concrete
inputs over `sJ`. -/
theorem release_port_spec_witness :
    release_port sJ "a" (some "j") none =
        (true, { sJ with active_instances :=
                   (dictErase sJ.active_instances (instanceKey "a" "j")) }) ∧
    release_port sJ "a" (some "zz") (some 7) = release_port sJ "a" none (some 7) ∧
    (release_port sJ "a" none (some 7)).2.active_instances =
        sJ.active_instances.filter (fun kv => !(kv.2.pid == 7 && kv.2.app_name == "a")) ∧
    release_port sJ "a" none none = (false, sJ) :=
  ⟨(release_port_spec sJ "a" "j" none 7 instJ).1 (by decide) rfl,
   (release_port_spec sJ "a" "zz" (some 7) 7 instJ).2.1 rfl,
   ((release_port_spec sJ "a" "j" none 7 instJ).2.2.1 (by decide) (by unfold keysNodup; decide)).1,
   (release_port_spec sJ "a" "j" none 7 instJ).2.2.2⟩

/-- Counterexample to C8: the distinct pairs `("a:b", "c")` and
`("a", "b:c")` share the flattened registry key `"a:b:c"`, so an
allocation addressed to the first pair returns the second pair's
entry (port 8100) and registers nothing. -/
theorem pair_key_collision :
    ¬ ("a:b", "c") = (("a", "b:c") : String × String) ∧
    allocate_port (fun _ => true) (fun _ => true) "g" "n" sB "a:b" (some "c") 9 =
        (Except.ok (8100, "c"), sB) ∧
    instB.app_name = "a" ∧ instB.instance_id = "b:c" ∧ instB.port = 8100 :=
  ⟨by decide, rfl, rfl, rfl, rfl⟩

/-- Lookups at a different key see through the candidate scan. -/
theorem allocateScan_get_ne (bindable : Int → Bool) (now : String) (s : PMState)
    (a i : String) (pid : Int) (k2 : String) (hne : ¬ instanceKey a i = k2) :
    dictGet (allocateScan bindable now s a i pid).2.active_instances k2 =
      dictGet s.active_instances k2 := by
  unfold allocateScan
  cases hf : (get_ports_for_app s.config a).find?
      (fun p => !((usedPorts s).contains p) && bindable p) with
  | none => rfl
  | some port => exact dictGet_insert_ne _ _ hne

/-- Claim C8 (amended): entries are identified by the flattened string
key `app_name ++ ":" ++ instance_id`.  Operations addressed to one key
never return or remove an entry stored under a different key — which
coincides with pair identity exactly when the flattened keys differ
(e.g. for colon-free app names) — but distinct pairs whose flattened
keys coincide do collide. -/
theorem key_isolation (alive bindable : Int → Bool) (g now : String) (s : PMState)
    (a i a2 i2 : String) (pid : Int)
    (hne : ¬ instanceKey a i = instanceKey a2 i2) (hi : ¬ i = "") :
    dictGet (allocate_port alive bindable g now s a (some i) pid).2.active_instances
        (instanceKey a2 i2) = dictGet s.active_instances (instanceKey a2 i2) ∧
    dictGet (release_port s a (some i) none).2.active_instances (instanceKey a2 i2) =
        dictGet s.active_instances (instanceKey a2 i2) := by
  constructor
  · rw [allocate_port_some alive bindable g now s a i pid hi]
    unfold allocateGo
    cases hg : dictGet s.active_instances (instanceKey a i) with
    | some existing =>
        simp only []
        by_cases ha : alive existing.pid = true
        · rw [if_pos ha]
        · rw [if_neg ha]
          rw [allocateScan_get_ne bindable now _ a i pid _ hne]
          exact dictGet_erase_ne _ hne
    | none => exact allocateScan_get_ne bindable now s a i pid _ hne
  · cases hg : dictGet s.active_instances (instanceKey a i) with
    | some inst =>
        rw [release_hit s a i none inst (by simp [hi]) hg]
        exact dictGet_erase_ne _ hne
    | none =>
        rw [release_fallthrough s a i none (Or.inr hg), release_none_none]

/-- Witness for C8: allocating and releasing for the fresh pair
`("v", "j")` leaves the binding of key `"w:i1"` untouched. -/
theorem key_isolation_witness :
    dictGet (allocate_port (fun _ => true) (fun _ => true) "g" "t" sW "v"
        (some "j") 3).2.active_instances (instanceKey "w" "i1") =
      dictGet sW.active_instances (instanceKey "w" "i1") ∧
    dictGet (release_port sW "v" (some "j") none).2.active_instances
        (instanceKey "w" "i1") = dictGet sW.active_instances (instanceKey "w" "i1") :=
  key_isolation (fun _ => true) (fun _ => true) "g" "t" sW "v" "j" "w" "i1" 3
    (by decide) (by decide)

/-- Claim C5: the candidate list is exactly the strategy-defined
sequence: `[p]` for Dedicated, `[a..b]` (length `b-a+1`) for Range,
`start + i*step` for Stepped, the given list for List, `[]` for Any. -/
theorem candidate_ports_spec (a : AppConfig) :
    (∀ p : Int, a.port_strategy = .dedicated → a.port = some p → 1024 ≤ p →
      a.get_available_ports = [p]) ∧
    (∀ x y : Int, a.port_strategy = .range → a.port_range = some (x, y) → x ≤ y →
      ((a.get_available_ports.length : Int) = y - x + 1 ∧
       ∀ i : Nat, ∀ h : i < a.get_available_ports.length,
         a.get_available_ports.get ⟨i, h⟩ = x + (i : Int))) ∧
    (∀ sc : SteppedPortConfig, a.port_strategy = .stepped → a.port_step = some sc →
      1 ≤ sc.count →
      ((a.get_available_ports.length : Int) = sc.count ∧
       ∀ i : Nat, ∀ h : i < a.get_available_ports.length,
         a.get_available_ports.get ⟨i, h⟩ = sc.start + (i : Int) * sc.step)) ∧
    (∀ ps : List Int, a.port_strategy = .list → a.ports = some ps →
      a.get_available_ports = ps) ∧
    (a.port_strategy = .any → a.get_available_ports = []) := by
  refine ⟨?_, ?_, ?_, ?_, ?_⟩
  · intro p hs hp hge
    have hp0 : ¬ p = 0 := by omega
    simp [AppConfig.get_available_ports, hs, hp, hp0]
  · intro x y hs hr hle
    have hform : a.get_available_ports =
        (List.range (y + 1 - x).toNat).map (fun k : Nat => x + (k : Int)) := by
      simp [AppConfig.get_available_ports, hs, hr, rangeInt]
    constructor
    · rw [hform, List.length_map, List.length_range]
      rw [Int.toNat_of_nonneg (by omega)]
      omega
    · intro i h
      rw [List.get_eq_getElem]
      simp only [hform, List.getElem_map, List.getElem_range]
  · intro sc hs hstep hc
    have hform : a.get_available_ports =
        (List.range sc.count.toNat).map (fun k : Nat => sc.start + (k : Int) * sc.step) := by
      simp [AppConfig.get_available_ports, hs, hstep]
    constructor
    · rw [hform, List.length_map, List.length_range]
      exact Int.toNat_of_nonneg (by omega)
    · intro i h
      rw [List.get_eq_getElem]
      simp only [hform, List.getElem_map, List.getElem_range]
  · intro ps hs hp
    simp [AppConfig.get_available_ports, hs, hp]
  · intro hs
    simp [AppConfig.get_available_ports, hs]

/-- Witness for C5: one concrete app per strategy. -/
theorem candidate_ports_spec_witness :
    appD.get_available_ports = [9100] ∧
    ((appR.get_available_ports.length : Int) = 8012 - 8010 + 1) ∧
    ((appS.get_available_ports.length : Int) = 3) ∧
    appL.get_available_ports = [8000] ∧
    appAny.get_available_ports = [] :=
  ⟨(candidate_ports_spec appD).1 9100 rfl rfl (by decide),
   ((candidate_ports_spec appR).2.1 8010 8012 rfl rfl (by decide)).1,
   ((candidate_ports_spec appS).2.2.1 ⟨8200, 10, 3⟩ rfl rfl (by decide)).1,
   (candidate_ports_spec appL).2.2.2.1 [8000] rfl rfl,
   (candidate_ports_spec appAny).2.2.2.2 rfl⟩

/-! ## Config round-trip -/

theorem parseStrategy_value (st : PortStrategy) :
    parseStrategy (strategyValue st) = some st := by
  cases st <;> rfl

theorem parseRange_save (o : Option (Int × Int)) :
    parseRange (o.map (fun r => [r.1, r.2])) = some o := by
  cases o with
  | none => rfl
  | some r => rfl

theorem parseStep_save (o : Option SteppedPortConfig)
    (h : o.all (fun sc =>
        decide (1024 ≤ sc.start) && decide (sc.start ≤ 65535) &&
        decide (1 ≤ sc.step) && decide (1 ≤ sc.count)) = true) :
    parseStep (o.map (fun sc => (sc.start, sc.step, sc.count))) = some o := by
  cases o with
  | none => rfl
  | some sc =>
      have h2 : (decide (1024 ≤ sc.start) && decide (sc.start ≤ 65535) &&
          decide (1 ≤ sc.step) && decide (1 ≤ sc.count)) = true := by
        simpa [Option.all] using h
      simp [parseStep, h2]

theorem loadApp_saveApp (n : String) (a : AppConfig) (h : validApp a = true) :
    loadApp n (saveApp a) = some { a with name := n } := by
  unfold validApp at h
  simp only [Bool.and_eq_true] at h
  unfold loadApp saveApp
  simp only []
  rw [parseStrategy_value, parseRange_save, parseStep_save a.port_step h.2]
  simp [h.1]

theorem loadApps_save (l : List (String × AppConfig))
    (h : l.all (fun kv => validApp kv.2) = true) :
    ∃ l2, loadApps (l.map (fun kv => (kv.1, saveApp kv.2))) = some l2 ∧
      l2.map (fun kv => (kv.1, saveApp kv.2)) = l.map (fun kv => (kv.1, saveApp kv.2)) := by
  induction l with
  | nil => exact ⟨[], rfl, rfl⟩
  | cons kv t ih =>
      simp only [List.all_cons, Bool.and_eq_true] at h
      rcases ih h.2 with ⟨l2, hl2, hmap⟩
      refine ⟨(kv.1, { kv.2 with name := kv.1 }) :: l2, ?_, ?_⟩
      · simp only [List.map_cons]
        show loadApps ((kv.1, saveApp kv.2) :: t.map (fun kv => (kv.1, saveApp kv.2))) = _
        unfold loadApps
        rw [loadApp_saveApp kv.1 kv.2 h.1, hl2]
      · simp only [List.map_cons, hmap]
        rfl

/-- Claim C7: saving, loading, and saving again reproduces the same
on-disk document for every valid `CoordinatorConfig`. -/
theorem config_roundtrip (cfg : CoordinatorConfig) (h : validCfg cfg = true) :
    (load_config (save_config cfg)).map save_config = some (save_config cfg) := by
  unfold validCfg at h
  rcases loadApps_save cfg.apps h with ⟨l2, hl2, hmap⟩
  unfold load_config save_config
  simp only []
  rw [hl2]
  show (some { coordinator_port := cfg.coordinator_port,
               default_port_range := (cfg.default_port_range.1, cfg.default_port_range.2),
               apps := l2 } : Option CoordinatorConfig).map save_config =
    some (save_config cfg)
  refine congrArg some ?_
  unfold save_config
  simp only []
  rw [hmap]

/-- Witness for C7 at the concrete two-app config `cfg7`. -/
theorem config_roundtrip_witness :
    (load_config (save_config cfg7)).map save_config = some (save_config cfg7) :=
  config_roundtrip cfg7 (by decide)

end Uvicoord
